import Mathlib

/-! file_reader: the set-returning function read_xml_file

A shallow embedding of src/file_reader/file_reader.c.

The C function read_xml_file is a PostgreSQL set-returning function: the
executor calls it once per row.  The first call parses the file with libxml2,
evaluates the row XPath, fills the table words (one row per matched node, one
cell per column XPath) and stores it in the multi-call context; every call then
either returns the row at the cursor call_cntr or reports that it is done.

libxml2 is not part of the repository: it is a parameter of the embedding
(structure XmlLib).  Its results are modelled with Option for a pointer that may
be NULL.  Undefined behaviour of the C code is an explicit result: a member
access through a NULL pointer is Fault.nullDereference, an access past the end
of an object is Fault.outOfBounds.

The state that PostgreSQL keeps between the calls is fn_extra: NULL before the
first call and again after SRF_RETURN_DONE, the multi-call context in between.
-/

set_option autoImplicit false

namespace FileReader

/-! ## Results of a run -/

/-- The ways in which a call leaves the normal control flow. -/
inductive Fault where
  /-- The call elog(ERROR, msg): the statement is aborted. -/
  | error (msg : String)
  /-- A member or element access through a NULL pointer. -/
  | nullDereference
  /-- An element access past the end of an allocated block. -/
  | outOfBounds
  /-- An access to a block after pfree. -/
  | useAfterFree
  deriving DecidableEq, Repr

/-- The result of running a piece of the program: the NOTICE messages it sent
(elog(NOTICE, msg) reports msg and returns), and then either a value or a fault. -/
inductive Res (α : Type) where
  | ok (notices : List String) (val : α)
  | fault (notices : List String) (f : Fault)
  deriving DecidableEq, Repr

/-- Sequencing: the notices of both parts are kept in order, a fault stops the run. -/
def Res.bind {α β : Type} (r : Res α) (k : α → Res β) : Res β :=
  match r with
  | Res.fault l f => Res.fault l f
  | Res.ok l a =>
    match k a with
    | Res.ok l2 b => Res.ok (l ++ l2) b
    | Res.fault l2 f => Res.fault (l ++ l2) f

instance : Monad Res where
  pure a := Res.ok [] a
  bind := Res.bind

/-- Whether a run ended with a value. -/
def Res.isOk {α : Type} (r : Res α) : Bool :=
  match r with
  | Res.ok _ _ => true
  | Res.fault _ _ => false

/-- The call elog(NOTICE, msg). -/
def notice (msg : String) : Res Unit := Res.ok [msg] ()

/-! ## libxml2 as the program uses it -/

/-- The fields of xmlXPathContext that the program sets: the document and the
current node. -/
structure XPathContext (Doc Node : Type) where
  doc : Option Doc
  node : Option Node

/-- The field of xmlXPathObject that the program reads: nodesetval, a node table
or NULL. -/
structure XPathObject (Node : Type) where
  nodesetval : Option (List Node)

/-- The libxml2 functions called by the program.  none stands for a NULL result. -/
structure XmlLib (Doc Node : Type) where
  /-- The call xmlReadFile(filename, NULL, 0): the parsed document, or NULL. -/
  xmlReadFile : String → Option Doc
  /-- The call xmlDocGetRootElement(doc). -/
  xmlDocGetRootElement : Option Doc → Option Node
  /-- The call xmlXPathEvalExpression(str, ctx): the result object, or NULL when
  the expression cannot be evaluated. -/
  xmlXPathEvalExpression : String → XPathContext Doc Node → Option (XPathObject Node)
  /-- The call xmlNodeGetContent(node): the text of the node, or NULL. -/
  xmlNodeGetContent : Node → Option String

/-- The macro xmlXPathNodeSetGetLength(ns): ((ns) ? (ns)->nodeNr : 0). -/
def xmlXPathNodeSetGetLength {Node : Type} (ns : Option (List Node)) : Nat :=
  match ns with
  | none => 0
  | some tab => tab.length

/-- The macro xmlXPathNodeSetItem(ns, index): the node at index, NULL when ns is
NULL or index is not below nodeNr. -/
def xmlXPathNodeSetItem {Node : Type} (ns : Option (List Node)) (index : Nat) : Option Node :=
  match ns with
  | none => none
  | some tab => tab[index]?

/-- The macro xmlXPathNodeSetIsEmpty(ns): ns is NULL or nodeNr is 0. -/
def xmlXPathNodeSetIsEmpty {Node : Type} (ns : Option (List Node)) : Bool :=
  match ns with
  | none => true
  | some tab => tab.length == 0

/-! ## The PostgreSQL side -/

/-- What a call receives in fcinfo: the three arguments (file name, row XPath,
array of column XPaths), whether get_call_result_type reports a composite type
for the call site, and the number natts of columns of the row type that the
call site expects (the tuple descriptor that get_call_result_type gives). -/
structure FunctionCallInfo where
  filename : String
  xpathArray : String
  xpathes : List String
  returnsComposite : Bool
  natts : Nat
  deriving DecidableEq, Repr

/-- One block words[i] of the table: its cells (a char pointer each, NULL or the
text) and whether pfree has been called on the block. -/
structure RowBlock where
  cells : List (Option String)
  freed : Bool
  deriving DecidableEq, Repr

/-- The fields of FuncCallContext that the program uses.  user_fctx holds the
table words, or NULL; tuple_desc is the descriptor of the row type of the call
site, of which the number of columns is kept. -/
structure FuncCallContext where
  call_cntr : Nat
  max_calls : Nat
  user_fctx : Option (List RowBlock)
  tuple_desc : Nat
  deriving DecidableEq, Repr

/-- What one call hands back to the executor: SRF_RETURN_NEXT with the tuple
that heap_form_tuple formed (a cell is none where the null flag is set), or
SRF_RETURN_DONE. -/
inductive CallResult where
  | next (row : List (Option String))
  | done
  deriving DecidableEq, Repr

/-! ## The program -/

/-- Function getValue (lines 223-236).  When the expression cannot be evaluated
the code sends a NOTICE and goes on to read xpathObj_uid->nodesetval. -/
def getValue {Doc Node : Type} (lib : XmlLib Doc Node) (xPathCtx : XPathContext Doc Node)
    (xPath : String) : Res (Option String) :=
  match lib.xmlXPathEvalExpression xPath xPathCtx with
  | none =>
    (notice "getValue Failed to evaluate xpath\n").bind fun _ =>
      Res.fault [] Fault.nullDereference
  | some xpathObj_uid =>
    let nodeset_uid := xpathObj_uid.nodesetval
    match xmlXPathNodeSetItem nodeset_uid 0 with
    | none => pure none
    | some node_uid => pure (lib.xmlNodeGetContent node_uid)

/-- The loop over j of lines 147-163: the cells of one row, words[i][j] being
NULL when getValue returns NULL and the returned text otherwise (the block of
charCount bytes allocated on line 160 is dropped on line 161). -/
def fillRow {Doc Node : Type} (lib : XmlLib Doc Node) (xPathCtx : XPathContext Doc Node) :
    List String → Res (List (Option String))
  | [] => pure []
  | xpathdata :: rest =>
    (getValue lib xPathCtx xpathdata).bind fun data =>
      (fillRow lib xPathCtx rest).bind fun cells =>
        pure (data :: cells)

/-- The loop over i of lines 143-164, over the nodes of the node table in
order: the current node of the context is set to the node, then the row is
filled. -/
def fillWords {Doc Node : Type} (lib : XmlLib Doc Node) (xPathCtx : XPathContext Doc Node)
    (key_datums : List String) : List Node → Res (List RowBlock)
  | [] => pure []
  | node :: rest =>
    (fillRow lib { xPathCtx with node := some node } key_datums).bind fun cells =>
      (fillWords lib { xPathCtx with node := some node } key_datums rest).bind fun blocks =>
        pure ({ cells := cells, freed := false } :: blocks)

/-- The nodes of a node table, none when the pointer is NULL. -/
def nodeTab {Node : Type} (ns : Option (List Node)) : List Node :=
  match ns with
  | none => []
  | some tab => tab

/-- The first-call branch (lines 99-174).  SRF_FIRSTCALL_INIT gives a context
with call_cntr = 0, max_calls = 0 and user_fctx = NULL; the descriptor of the
row type of the call site is kept in it (lines 111-116).  The two elog(NOTICE)
calls after xmlReadFile and after the evaluation of the row XPath return to the
code that follows them.  The table is allocated on lines 134-138 and filled on
lines 143-164; xmlFreeDoc and xmlCleanupParser do not touch the texts stored in
it, which xmlNodeGetContent has copied. -/
def firstCall {Doc Node : Type} (lib : XmlLib Doc Node) (fcinfo : FunctionCallInfo) :
    Res FuncCallContext :=
  if fcinfo.returnsComposite = false then
    Res.fault [] (Fault.error "return type must be a row type")
  else
    let doc := lib.xmlReadFile fcinfo.filename
    (if doc.isNone then notice "Could not parse the XML file" else pure ()).bind fun _ =>
      let xPathCtx : XPathContext Doc Node :=
        { doc := doc, node := lib.xmlDocGetRootElement doc }
      match lib.xmlXPathEvalExpression fcinfo.xpathArray xPathCtx with
      | none =>
        (notice "Failed to evaluate xpath\n").bind fun _ =>
          Res.fault [] Fault.nullDereference
      | some xpathObj =>
        let nodeset := xpathObj.nodesetval
        let max_calls := xmlXPathNodeSetGetLength nodeset
        if xmlXPathNodeSetIsEmpty nodeset = false then
          (fillWords lib xPathCtx fcinfo.xpathes (nodeTab nodeset)).bind fun words =>
            pure { call_cntr := 0, max_calls := max_calls, user_fctx := some words
                   tuple_desc := fcinfo.natts }
        else
          (notice "Failed to find nodes using: \n").bind fun _ =>
            pure { call_cntr := 0, max_calls := max_calls, user_fctx := none
                   tuple_desc := fcinfo.natts }

/-- The size in bytes of the type bool of PostgreSQL. -/
def sizeofBool : Nat := 1

/-- The size in bytes of a pointer and of a Datum, which has the width of a
pointer (a 64-bit build; a pointer of a 32-bit build has 4 bytes). -/
def sizeofPointer : Nat := 8

/-- A store of width bytes at the address of an object of size bytes. -/
def storeInto (size width : Nat) : Res Unit :=
  if width ≤ size then pure () else Res.fault [] Fault.outOfBounds

/-- Lines 189-193.  deconstruct_array_builtin stores a pointer to the elements
through its third argument, a pointer to the null flags through its fourth and
the number of elements through its fifth.  The per-call branch declares
key_datums as a Datum and key_nulls as a bool and passes their addresses (the
first-call branch, lines 102-106, declares a Datum pointer and a bool pointer).
The result is elem_count. -/
def deconstructPerCall (fcinfo : FunctionCallInfo) : Res Nat :=
  (storeInto sizeofPointer sizeofPointer).bind fun _ =>
    (storeInto sizeofBool sizeofPointer).bind fun _ =>
      pure fcinfo.xpathes.length

/-- The loop of lines 198-209 over i below elem_count, reading
words[call_cntr][i] into the arrays value_t and nulls of elem_count entries. -/
def readCells (cells : List (Option String)) (elem_count : Nat) : Res (List (Option String)) :=
  if elem_count ≤ cells.length then pure (cells.take elem_count)
  else Res.fault [] Fault.outOfBounds

/-- The call heap_form_tuple(tupdesc, value_t, nulls) of line 210: one cell for
each of the natts columns of the descriptor, read from the arrays at the index
of the column.  The arrays have elem_count entries. -/
def heap_form_tuple (natts : Nat) (cells : List (Option String)) :
    Res (List (Option String)) :=
  if natts ≤ cells.length then pure (cells.take natts)
  else Res.fault [] Fault.outOfBounds

/-- Lines 195-213 of the row-returning branch: the row at the cursor is read
into the arrays, the tuple is formed with the descriptor kept by the first
call, pfree(words[call_cntr]) marks the block as released, and SRF_RETURN_NEXT
adds one to call_cntr. -/
def emitRow (funcctx : FuncCallContext) (elem_count : Nat) :
    Res (CallResult × Option FuncCallContext) :=
  match funcctx.user_fctx with
  | none => Res.fault [] Fault.nullDereference
  | some words =>
    match words[funcctx.call_cntr]? with
    | none => Res.fault [] Fault.outOfBounds
    | some block =>
      if block.freed then Res.fault [] Fault.useAfterFree
      else
        (readCells block.cells elem_count).bind fun cells =>
          (heap_form_tuple funcctx.tuple_desc cells).bind fun tuple =>
            pure (CallResult.next tuple,
              some { funcctx with
                call_cntr := funcctx.call_cntr + 1
                user_fctx :=
                  some (words.set funcctx.call_cntr { block with freed := true }) })

/-- The per-call part (lines 176-219), with the value of fn_extra that the call
leaves.  With the cursor below max_calls the call runs lines 189-193 and then
lines 195-213.  Otherwise SRF_RETURN_DONE gives the context up: fn_extra is
NULL again, and the next call is a first call. -/
def perCall (fcinfo : FunctionCallInfo) (funcctx : FuncCallContext) :
    Res (CallResult × Option FuncCallContext) :=
  let call_cntr := funcctx.call_cntr
  let max_calls := funcctx.max_calls
  if call_cntr < max_calls then
    (deconstructPerCall fcinfo).bind fun elem_count => emitRow funcctx elem_count
  else
    pure (CallResult.done, none)

/-- One call of read_xml_file on the value of fn_extra that the call before
left.  SRF_IS_FIRSTCALL holds when fn_extra is NULL, here none. -/
def read_xml_file {Doc Node : Type} (lib : XmlLib Doc Node) (fcinfo : FunctionCallInfo)
    (fn_extra : Option FuncCallContext) : Res (CallResult × Option FuncCallContext) :=
  match fn_extra with
  | none => (firstCall lib fcinfo).bind fun funcctx => perCall fcinfo funcctx
  | some funcctx => perCall fcinfo funcctx

/-- The successive calls with the same fcinfo: n calls, each on the value of
fn_extra left by the call before, stopped by a fault. -/
def calls {Doc Node : Type} (lib : XmlLib Doc Node) (fcinfo : FunctionCallInfo) :
    Nat → Option FuncCallContext → Res (List CallResult)
  | 0, _ => pure []
  | n + 1, fn_extra =>
    (read_xml_file lib fcinfo fn_extra).bind fun out =>
      (calls lib fcinfo n out.2).bind fun rest =>
        pure (out.1 :: rest)

/-- The contexts of one extraction as the row-returning branch is laid out: the
context set up by a first call, and every context left by lines 195-213 run on
such a context with the number of column XPaths as elem_count. -/
inductive Reachable {Doc Node : Type} (lib : XmlLib Doc Node) (fcinfo : FunctionCallInfo) :
    FuncCallContext → Prop where
  | first {l : List String} {ctx : FuncCallContext} :
      firstCall lib fcinfo = Res.ok l ctx → Reachable lib fcinfo ctx
  | step {l : List String} {ctx ctx2 : FuncCallContext} {r : CallResult} :
      Reachable lib fcinfo ctx →
      emitRow ctx fcinfo.xpathes.length = Res.ok l (r, some ctx2) →
      Reachable lib fcinfo ctx2

/-- Whether the block of row i has been released. -/
def released (ctx : FuncCallContext) (i : Nat) : Bool :=
  match ctx.user_fctx with
  | none => false
  | some words =>
    match words[i]? with
    | none => false
    | some block => block.freed

/-- The context in which the row XPath is evaluated (lines 118-125): the
document read from the file, with its root element as the current node. -/
def rowContext {Doc Node : Type} (lib : XmlLib Doc Node) (fcinfo : FunctionCallInfo) :
    XPathContext Doc Node :=
  { doc := lib.xmlReadFile fcinfo.filename
    node := lib.xmlDocGetRootElement (lib.xmlReadFile fcinfo.filename) }

/-- The nodes that the row XPath selects, in the order of the node table; no
node when there is no result object. -/
def rowNodes {Doc Node : Type} (lib : XmlLib Doc Node) (fcinfo : FunctionCallInfo) : List Node :=
  match lib.xmlXPathEvalExpression fcinfo.xpathArray (rowContext lib fcinfo) with
  | none => []
  | some xpathObj => nodeTab xpathObj.nodesetval

/-! ## The cell as the specification words it -/

/-- The cell for a column selector under a row node, after the wording of the
specification: absent when the selector gives an empty node-set or a first node
without content, otherwise the text content of the first node. -/
def specCell {Doc Node : Type} (lib : XmlLib Doc Node) (doc : Option Doc) (rowNode : Node)
    (selector : String) : Option String :=
  match lib.xmlXPathEvalExpression selector { doc := doc, node := some rowNode } with
  | none => none
  | some obj =>
    match obj.nodesetval with
    | none => none
    | some [] => none
    | some (first :: _) => lib.xmlNodeGetContent first

/-- The rows of the specification: one per selected node, in node-set order,
one cell per column selector, in the order of the selectors. -/
def specRows {Doc Node : Type} (lib : XmlLib Doc Node) (fcinfo : FunctionCallInfo) :
    List (List (Option String)) :=
  (rowNodes lib fcinfo).map fun n =>
    fcinfo.xpathes.map (specCell lib (lib.xmlReadFile fcinfo.filename) n)

/-- The table of a running extraction holds the rows tab: max_calls is their
number, the cursor is within it, the descriptor is that of the call site, every
row has one cell per column XPath, and the blocks of the table carry these
rows, released exactly below the cursor. -/
def Holds (fcinfo : FunctionCallInfo) (tab : List (List (Option String)))
    (ctx : FuncCallContext) : Prop :=
  ctx.max_calls = tab.length ∧ ctx.call_cntr ≤ tab.length ∧
  ctx.tuple_desc = fcinfo.natts ∧
  (∀ r ∈ tab, r.length = fcinfo.xpathes.length) ∧
  ((ctx.user_fctx = none ∧ tab = []) ∨
    ∃ words, ctx.user_fctx = some words ∧ words.map RowBlock.cells = tab ∧
      ∀ i b, words[i]? = some b → (b.freed = true ↔ i < ctx.call_cntr))

/-- Cell j of row i of the table words that a first call has built, that is
words[i][j]; none when the first call faulted or the table has no such cell. -/
def tableCell (first : Res FuncCallContext) (i j : Nat) : Option (Option String) :=
  match first with
  | Res.fault _ _ => none
  | Res.ok _ ctx =>
    match ctx.user_fctx with
    | none => none
    | some words =>
      match words[i]? with
      | none => none
      | some block => block.cells[j]?

/-! ## A small instance of the library, for concrete runs -/

/-- An XML tree: elements with children, and text. -/
inductive XmlNode where
  | element (name : String) (children : List XmlNode)
  | text (content : String)
  deriving Repr

mutual
/-- The text content of a node: the text below it, in document order. -/
def XmlNode.content : XmlNode → String
  | XmlNode.element _ children => XmlNode.contentList children
  | XmlNode.text s => s
/-- The text content of a list of nodes. -/
def XmlNode.contentList : List XmlNode → String
  | [] => ""
  | c :: cs => XmlNode.content c ++ XmlNode.contentList cs
end

mutual
/-- The elements called name at or below a node, in document order. -/
def XmlNode.named (name : String) : XmlNode → List XmlNode
  | XmlNode.element n children =>
    if n = name then XmlNode.element n children :: XmlNode.namedList name children
    else XmlNode.namedList name children
  | XmlNode.text _ => []
/-- The elements called name at or below the nodes of a list. -/
def XmlNode.namedList (name : String) : List XmlNode → List XmlNode
  | [] => []
  | c :: cs => XmlNode.named name c ++ XmlNode.namedList name cs
end

/-- The child elements of a node that are called name. -/
def XmlNode.childrenNamed (name : String) : XmlNode → List XmlNode
  | XmlNode.element _ children =>
    children.filter fun c =>
      match c with
      | XmlNode.element n _ => decide (n = name)
      | XmlNode.text _ => false
  | XmlNode.text _ => []

/-- Whether a list of characters is a plain element name. -/
def isPlainName (cs : List Char) : Bool :=
  !cs.isEmpty && cs.all Char.isAlphanum

/-- The two forms of XPath expression of the instance: //name, every element of
that name in the document, and name, the children of the current node of that
name.  Any other text, such as one with an unclosed bracket, is not evaluated
(NULL).  Without a document or current node the node-set is empty. -/
def demoEval (str : String) (ctx : XPathContext XmlNode XmlNode) : Option (XPathObject XmlNode) :=
  match str.data with
  | '/' :: '/' :: cs =>
    if isPlainName cs then
      match ctx.doc with
      | none => some { nodesetval := some [] }
      | some root => some { nodesetval := some (XmlNode.named (String.mk cs) root) }
    else none
  | cs =>
    if isPlainName cs then
      match ctx.node with
      | none => some { nodesetval := some [] }
      | some n => some { nodesetval := some (XmlNode.childrenNamed (String.mk cs) n) }
    else none

/-- The document
<root><item><name>A</name></item><item><name>B</name><age>5</age></item></root>. -/
def itemsDoc : XmlNode :=
  XmlNode.element "root"
    [XmlNode.element "item" [XmlNode.element "name" [XmlNode.text "A"]],
     XmlNode.element "item"
       [XmlNode.element "name" [XmlNode.text "B"], XmlNode.element "age" [XmlNode.text "5"]]]

/-- A library instance with one readable file, items.xml, holding itemsDoc; any
other file name (broken.xml, say, with an unclosed tag) gives no document. -/
def demoLib : XmlLib XmlNode XmlNode where
  xmlReadFile := fun filename => if filename = "items.xml" then some itemsDoc else none
  xmlDocGetRootElement := fun doc => doc
  xmlXPathEvalExpression := demoEval
  xmlNodeGetContent := fun n => some n.content

/-- The call of the example of the specification: rows //item, columns name and
age, from a call site that expects rows of two columns. -/
def itemsCall : FunctionCallInfo :=
  { filename := "items.xml", xpathArray := "//item", xpathes := ["name", "age"],
    returnsComposite := true, natts := 2 }

/-- The same call with the row XPath //missing, which matches nothing. -/
def missingCall : FunctionCallInfo := { itemsCall with xpathArray := "//missing" }

/-- The same call on a file that is not parsed. -/
def brokenCall : FunctionCallInfo := { itemsCall with filename := "broken.xml" }

/-- The same call with a row XPath that is not well formed. -/
def badRowCall : FunctionCallInfo := { itemsCall with xpathArray := "//item[" }

/-- The same call with a second column XPath that is not well formed. -/
def badColumnCall : FunctionCallInfo := { itemsCall with xpathes := ["name", "age["] }

/-- The same call with a single column XPath, not well formed. -/
def oneBadColumnCall : FunctionCallInfo :=
  { itemsCall with xpathes := ["name["], natts := 1 }

/-- The same call with the single column age. -/
def ageCall : FunctionCallInfo := { itemsCall with xpathes := ["age"], natts := 1 }

/-- The context that the first call sets up for itemsCall. -/
def itemsContext : FuncCallContext :=
  { call_cntr := 0, max_calls := 2
    user_fctx := some
      [{ cells := [some "A", none], freed := false },
       { cells := [some "B", some "5"], freed := false }]
    tuple_desc := 2 }

/-- The context that lines 195-213 leave when run on itemsContext. -/
def itemsContextAfterOne : FuncCallContext :=
  { call_cntr := 1, max_calls := 2
    user_fctx := some
      [{ cells := [some "A", none], freed := true },
       { cells := [some "B", some "5"], freed := false }]
    tuple_desc := 2 }

/-! ## Lemmas on the sequencing of runs -/


@[simp] theorem pure_eq_ok {α : Type} (a : α) : (pure a : Res α) = Res.ok [] a := rfl

@[simp] theorem bind_fault {α β : Type} (l : List String) (f : Fault) (k : α → Res β) :
    (Res.fault l f).bind k = Res.fault l f := rfl

@[simp] theorem bind_ok_nil {α β : Type} (a : α) (k : α → Res β) :
    (Res.ok [] a).bind k = k a := by
  cases h : k a <;> simp [Res.bind, h]

/-- A sequence that ends well: both parts ended well. -/
theorem bind_eq_ok {α β : Type} {r : Res α} {k : α → Res β} {l : List String} {b : β}
    (h : r.bind k = Res.ok l b) :
    ∃ l1 a l2, r = Res.ok l1 a ∧ k a = Res.ok l2 b ∧ l = l1 ++ l2 := by
  cases r with
  | fault l1 f => simp [Res.bind] at h
  | ok l1 a =>
    cases hk : k a with
    | fault l2 f => simp [Res.bind, hk] at h
    | ok l2 b2 =>
      simp [Res.bind, hk] at h
      exact ⟨l1, a, l2, rfl, by rw [hk, h.2], h.1.symm⟩

theorem bind_assoc {α β γ : Type} (r : Res α) (f : α → Res β) (g : β → Res γ) :
    (r.bind f).bind g = r.bind fun a => (f a).bind g := by
  cases r with
  | fault l e => rfl
  | ok l a =>
    cases hf : f a with
    | fault l2 e => simp [Res.bind, hf]
    | ok l2 b =>
      cases hg : g b with
      | fault l3 e => simp [Res.bind, hf, hg]
      | ok l3 c => simp [Res.bind, hf, hg]

/-! ## The first call -/

theorem getValue_of_eval {Doc Node : Type} (lib : XmlLib Doc Node) (doc : Option Doc) (n : Node)
    (c : String) (h : lib.xmlXPathEvalExpression c { doc := doc, node := some n } ≠ none) :
    getValue lib { doc := doc, node := some n } c = Res.ok [] (specCell lib doc n c) := by
  unfold getValue specCell
  cases he : lib.xmlXPathEvalExpression c { doc := doc, node := some n } with
  | none => exact absurd he h
  | some obj =>
    cases hn : obj.nodesetval with
    | none => simp [xmlXPathNodeSetItem, hn]
    | some tab =>
      cases tab with
      | nil => simp [xmlXPathNodeSetItem, hn]
      | cons a t => simp [xmlXPathNodeSetItem, hn]

theorem getValue_eq_ok {Doc Node : Type} {lib : XmlLib Doc Node} {ctx : XPathContext Doc Node}
    {c : String} {l : List String} {v : Option String} (h : getValue lib ctx c = Res.ok l v) :
    lib.xmlXPathEvalExpression c ctx ≠ none := by
  intro he
  simp [getValue, he, notice, Res.bind] at h

theorem fillRow_of_eval {Doc Node : Type} (lib : XmlLib Doc Node) (doc : Option Doc) (n : Node)
    (cols : List String)
    (h : ∀ c ∈ cols, lib.xmlXPathEvalExpression c { doc := doc, node := some n } ≠ none) :
    fillRow lib { doc := doc, node := some n } cols = Res.ok [] (cols.map (specCell lib doc n)) := by
  induction cols with
  | nil => rfl
  | cons c rest ih =>
    have h1 := getValue_of_eval lib doc n c (h c (List.mem_cons_self _ _))
    have h2 := ih (fun c2 hc2 => h c2 (List.mem_cons_of_mem _ hc2))
    simp [fillRow, h1, h2]

theorem fillRow_eq_ok {Doc Node : Type} {lib : XmlLib Doc Node} {ctx : XPathContext Doc Node}
    {cols : List String} {l : List String} {cells : List (Option String)}
    (h : fillRow lib ctx cols = Res.ok l cells) :
    ∀ c ∈ cols, lib.xmlXPathEvalExpression c ctx ≠ none := by
  induction cols generalizing l cells with
  | nil => intro c hc; cases hc
  | cons c rest ih =>
    simp only [fillRow] at h
    obtain ⟨l1, a, l2, h1, h2, _⟩ := bind_eq_ok h
    obtain ⟨l3, a2, l4, h3, _, _⟩ := bind_eq_ok h2
    intro c2 hc2
    rcases List.mem_cons.mp hc2 with rfl | hm
    · exact getValue_eq_ok h1
    · exact ih h3 c2 hm

theorem fillWords_of_eval {Doc Node : Type} (lib : XmlLib Doc Node) (ctx : XPathContext Doc Node)
    (cols : List String) (nodes : List Node)
    (h : ∀ n ∈ nodes, ∀ c ∈ cols,
      lib.xmlXPathEvalExpression c { doc := ctx.doc, node := some n } ≠ none) :
    fillWords lib ctx cols nodes =
      Res.ok [] (nodes.map fun n =>
        { cells := cols.map (specCell lib ctx.doc n), freed := false }) := by
  induction nodes generalizing ctx with
  | nil => rfl
  | cons n rest ih =>
    have h1 := fillRow_of_eval lib ctx.doc n cols (h n (List.mem_cons_self _ _))
    have h2 := ih { ctx with node := some n } (fun n2 hn2 => h n2 (List.mem_cons_of_mem _ hn2))
    simp only [fillWords, h1, h2]
    simp

theorem fillWords_eq_ok {Doc Node : Type} {lib : XmlLib Doc Node} {ctx : XPathContext Doc Node}
    {cols : List String} {nodes : List Node} {l : List String} {words : List RowBlock}
    (h : fillWords lib ctx cols nodes = Res.ok l words) :
    ∀ n ∈ nodes, ∀ c ∈ cols,
      lib.xmlXPathEvalExpression c { doc := ctx.doc, node := some n } ≠ none := by
  induction nodes generalizing ctx l words with
  | nil => intro n hn; cases hn
  | cons n rest ih =>
    simp only [fillWords] at h
    obtain ⟨l1, a, l2, h1, h2, _⟩ := bind_eq_ok h
    obtain ⟨l3, a2, l4, h3, _, _⟩ := bind_eq_ok h2
    intro n2 hn2
    rcases List.mem_cons.mp hn2 with rfl | hm
    · exact fillRow_eq_ok h1
    · exact ih h3 n2 hm

theorem length_nodeTab {Node : Type} (ns : Option (List Node)) :
    xmlXPathNodeSetGetLength ns = (nodeTab ns).length := by
  cases ns <;> rfl

theorem isEmpty_nodeTab {Node : Type} (ns : Option (List Node)) :
    xmlXPathNodeSetIsEmpty ns = true ↔ nodeTab ns = [] := by
  cases ns with
  | none => simp [xmlXPathNodeSetIsEmpty, nodeTab]
  | some tab => cases tab <;> simp [xmlXPathNodeSetIsEmpty, nodeTab]

/-- The table that a first call builds holds the rows of the specification. -/
theorem holds_fresh (fcinfo : FunctionCallInfo) {Node : Type} (nodes : List Node)
    (cell : Node → String → Option String) :
    Holds fcinfo (nodes.map fun n => fcinfo.xpathes.map (cell n))
      { call_cntr := 0, max_calls := nodes.length
        user_fctx := some (nodes.map fun n =>
          { cells := fcinfo.xpathes.map (cell n), freed := false })
        tuple_desc := fcinfo.natts } := by
  refine ⟨by simp, by simp, rfl, ?_, Or.inr ⟨_, rfl, ?_, ?_⟩⟩
  · intro r hr
    obtain ⟨n, _, rfl⟩ := List.mem_map.mp hr
    simp
  · simp [List.map_map, Function.comp_def]
  · intro i b hb
    simp only [List.getElem?_map] at hb
    cases hn : nodes[i]? with
    | none => simp [hn] at hb
    | some n =>
      simp [hn] at hb
      subst hb
      simp

/-- What a first call that ends well has done. -/
theorem firstCall_eq_ok {Doc Node : Type} {lib : XmlLib Doc Node} {fcinfo : FunctionCallInfo}
    {l : List String} {ctx : FuncCallContext} (h : firstCall lib fcinfo = Res.ok l ctx) :
    fcinfo.returnsComposite = true ∧
    (∃ obj, lib.xmlXPathEvalExpression fcinfo.xpathArray (rowContext lib fcinfo) = some obj) ∧
    (∀ n ∈ rowNodes lib fcinfo, ∀ c ∈ fcinfo.xpathes,
      lib.xmlXPathEvalExpression c
        { doc := lib.xmlReadFile fcinfo.filename, node := some n } ≠ none) ∧
    ctx.call_cntr = 0 ∧ Holds fcinfo (specRows lib fcinfo) ctx := by
  unfold firstCall at h
  cases hc : fcinfo.returnsComposite with
  | false => simp [hc] at h
  | true =>
    simp only [hc, Bool.true_eq_false, if_false] at h
    obtain ⟨l1, _, l2, _, h2, _⟩ := bind_eq_ok h
    have hctx : rowContext lib fcinfo =
        { doc := lib.xmlReadFile fcinfo.filename
          node := lib.xmlDocGetRootElement (lib.xmlReadFile fcinfo.filename) } := rfl
    cases he : lib.xmlXPathEvalExpression fcinfo.xpathArray (rowContext lib fcinfo) with
    | none =>
      rw [hctx] at he
      simp [he, notice, Res.bind] at h2
    | some obj =>
      have hnodes : rowNodes lib fcinfo = nodeTab obj.nodesetval := by
        simp [rowNodes, he]
      rw [hctx] at he
      simp only [he] at h2
      cases hemp : xmlXPathNodeSetIsEmpty obj.nodesetval with
      | false =>
        simp only [hemp, if_true] at h2
        obtain ⟨l3, words, l4, h3, h4, _⟩ := bind_eq_ok h2
        have hev := fillWords_eq_ok h3
        rw [fillWords_of_eval lib _ _ _ hev] at h3
        simp at h3 h4
        refine ⟨rfl, ⟨obj, rfl⟩, ?_, ?_, ?_⟩
        · rw [hnodes]; exact hev
        · rw [← h4.2]
        · rw [← h4.2, ← h3.2, length_nodeTab]
          unfold specRows
          rw [hnodes]
          exact holds_fresh fcinfo (nodeTab obj.nodesetval)
            (fun n c => specCell lib (lib.xmlReadFile fcinfo.filename) n c)
      | true =>
        have hnil := (isEmpty_nodeTab obj.nodesetval).mp hemp
        simp [hemp, notice, Res.bind] at h2
        refine ⟨rfl, ⟨obj, rfl⟩, ?_, ?_, ?_⟩
        · rw [hnodes, hnil]; intro n hn; cases hn
        · rw [← h2.2]
        · rw [← h2.2, length_nodeTab, hnil]
          unfold specRows
          rw [hnodes, hnil]
          exact ⟨rfl, Nat.le_refl _, rfl, (by intro r hr; cases hr), Or.inl ⟨rfl, rfl⟩⟩

/-- A first call ends well when the call site expects a row type, the row XPath
is evaluated and every column XPath is evaluated under every selected node; the
notices are the one on a file that is not parsed and the one on an empty
node-set. -/
theorem firstCall_of_eval {Doc Node : Type} (lib : XmlLib Doc Node) (fcinfo : FunctionCallInfo)
    (hc : fcinfo.returnsComposite = true)
    (hrow : lib.xmlXPathEvalExpression fcinfo.xpathArray (rowContext lib fcinfo) ≠ none)
    (hcols : ∀ n ∈ rowNodes lib fcinfo, ∀ c ∈ fcinfo.xpathes,
      lib.xmlXPathEvalExpression c
        { doc := lib.xmlReadFile fcinfo.filename, node := some n } ≠ none) :
    ∃ ctx, firstCall lib fcinfo =
      Res.ok
        ((if (lib.xmlReadFile fcinfo.filename).isNone then ["Could not parse the XML file"]
          else []) ++
         (if (rowNodes lib fcinfo).isEmpty then ["Failed to find nodes using: \n"] else []))
        ctx := by
  have hctx : rowContext lib fcinfo =
      { doc := lib.xmlReadFile fcinfo.filename
        node := lib.xmlDocGetRootElement (lib.xmlReadFile fcinfo.filename) } := rfl
  cases he : lib.xmlXPathEvalExpression fcinfo.xpathArray (rowContext lib fcinfo) with
  | none => exact absurd he hrow
  | some obj =>
    have hnodes : rowNodes lib fcinfo = nodeTab obj.nodesetval := by
      simp [rowNodes, he]
    rw [hnodes] at hcols
    rw [hctx] at he
    unfold firstCall
    simp only [hc, Bool.true_eq_false, if_false, he, hnodes]
    cases hemp : xmlXPathNodeSetIsEmpty obj.nodesetval with
    | false =>
      have hne : (nodeTab obj.nodesetval).isEmpty = false := by
        cases hn : nodeTab obj.nodesetval with
        | nil => rw [(isEmpty_nodeTab _).mpr hn] at hemp; cases hemp
        | cons a t => rfl
      simp only [if_true]
      rw [fillWords_of_eval lib _ _ _ hcols]
      cases hd : (lib.xmlReadFile fcinfo.filename).isNone <;>
        simp [hd, hne, notice, Res.bind]
    | true =>
      have hnil := (isEmpty_nodeTab obj.nodesetval).mp hemp
      cases hd : (lib.xmlReadFile fcinfo.filename).isNone <;>
        simp [hd, hnil, notice, Res.bind]

/-! ## The calls after the first -/

theorem perCall_done (fcinfo : FunctionCallInfo) (ctx : FuncCallContext)
    (h : ¬ ctx.call_cntr < ctx.max_calls) :
    perCall fcinfo ctx = Res.ok [] (CallResult.done, none) := by
  simp [perCall, h]

/-- The store of a pointer at the address of the bool key_nulls is out of
bounds, so lines 189-193 fault. -/
theorem deconstructPerCall_faults (fcinfo : FunctionCallInfo) :
    deconstructPerCall fcinfo = Res.fault [] Fault.outOfBounds := by
  simp [deconstructPerCall, storeInto, sizeofBool, sizeofPointer, Res.bind]

/-- A call with the cursor inside the table faults in lines 189-193. -/
theorem perCall_row_faults (fcinfo : FunctionCallInfo) (ctx : FuncCallContext)
    (h : ctx.call_cntr < ctx.max_calls) :
    perCall fcinfo ctx = Res.fault [] Fault.outOfBounds := by
  simp [perCall, h, deconstructPerCall_faults]

/-- Lines 195-213 on a table that holds the rows, with the cursor inside it and
a descriptor of at most as many columns as there are column XPaths: they return
the first natts cells of the row at the cursor, release its block and move the
cursor by one; the table still holds the rows. -/
theorem emitRow_of_holds (fcinfo : FunctionCallInfo) (tab : List (List (Option String)))
    (ctx : FuncCallContext) (h : Holds fcinfo tab ctx) (hlt : ctx.call_cntr < tab.length)
    (hn : fcinfo.natts ≤ fcinfo.xpathes.length) :
    ∃ row words block,
      tab[ctx.call_cntr]? = some row ∧
      ctx.user_fctx = some words ∧ words[ctx.call_cntr]? = some block ∧
      block.cells = row ∧ block.freed = false ∧
      emitRow ctx fcinfo.xpathes.length =
        Res.ok [] (CallResult.next (row.take fcinfo.natts),
          some { call_cntr := ctx.call_cntr + 1, max_calls := ctx.max_calls
                 user_fctx := some (words.set ctx.call_cntr { block with freed := true })
                 tuple_desc := ctx.tuple_desc }) ∧
      Holds fcinfo tab
        { call_cntr := ctx.call_cntr + 1, max_calls := ctx.max_calls
          user_fctx := some (words.set ctx.call_cntr { block with freed := true })
          tuple_desc := ctx.tuple_desc } := by
  obtain ⟨hmax, hle, htd, hlen, hw⟩ := h
  rcases hw with ⟨_, hnil⟩ | ⟨words, hu, hmap, hfreed⟩
  · rw [hnil] at hlt; exact absurd hlt (Nat.not_lt_zero _)
  · have hwl : words.length = tab.length := by rw [← hmap, List.length_map]
    have hlt2 : ctx.call_cntr < words.length := by rw [hwl]; exact hlt
    have hb : words[ctx.call_cntr]? = some (words[ctx.call_cntr]) :=
      List.getElem?_eq_getElem hlt2
    have hrow : tab[ctx.call_cntr]? = some (words[ctx.call_cntr]).cells := by
      rw [← hmap, List.getElem?_map, hb]; rfl
    have hnf : (words[ctx.call_cntr]).freed = false := by
      cases hf : (words[ctx.call_cntr]).freed with
      | false => rfl
      | true => exact absurd ((hfreed _ _ hb).mp hf) (Nat.lt_irrefl _)
    have hcl : (words[ctx.call_cntr]).cells.length = fcinfo.xpathes.length :=
      hlen _ (List.mem_iff_getElem?.mpr ⟨_, hrow⟩)
    refine ⟨_, words, _, hrow, hu, hb, rfl, hnf, ?_, ?_⟩
    · have htake : List.take fcinfo.xpathes.length (words[ctx.call_cntr]).cells =
          (words[ctx.call_cntr]).cells := List.take_of_length_le (by rw [hcl])
      simp only [emitRow, hu, hb, hnf, readCells, hcl, Nat.le_refl, if_true, htake,
        heap_form_tuple, htd, hn, pure_eq_ok, bind_ok_nil, Bool.false_eq_true, if_false]
    · refine ⟨hmax, hlt, htd, hlen, Or.inr ⟨_, rfl, ?_, ?_⟩⟩
      · rw [List.map_set]
        have : tab[ctx.call_cntr]? = some (words[ctx.call_cntr]).cells := hrow
        rw [hmap]
        apply List.ext_getElem?
        intro i
        by_cases hi : ctx.call_cntr = i
        · subst hi
          rw [List.getElem?_set_self hlt, this]
        · rw [List.getElem?_set_ne hi]
      · intro i b hib
        by_cases hi : ctx.call_cntr = i
        · subst hi
          rw [List.getElem?_set_self hlt2] at hib
          simp at hib
          subst hib
          simp
        · rw [List.getElem?_set_ne hi] at hib
          have := hfreed i b hib
          rw [this]
          show i < ctx.call_cntr ↔ i < ctx.call_cntr + 1
          omega

/-- Lines 195-213 return a row only with the cursor inside the table and a
descriptor of at most as many columns as there are column XPaths. -/
theorem emitRow_eq_ok (fcinfo : FunctionCallInfo) (tab : List (List (Option String)))
    (ctx : FuncCallContext) (h : Holds fcinfo tab ctx) {l : List String} {r : CallResult}
    {st : Option FuncCallContext}
    (hok : emitRow ctx fcinfo.xpathes.length = Res.ok l (r, st)) :
    ctx.call_cntr < tab.length ∧ fcinfo.natts ≤ fcinfo.xpathes.length := by
  obtain ⟨hmax, hle, htd, hlen, hw⟩ := h
  rcases hw with ⟨hu, _⟩ | ⟨words, hu, hmap, hfreed⟩
  · simp [emitRow, hu] at hok
  · have hwl : words.length = tab.length := by rw [← hmap, List.length_map]
    by_cases hlt : ctx.call_cntr < tab.length
    · refine ⟨hlt, ?_⟩
      have hlt2 : ctx.call_cntr < words.length := by rw [hwl]; exact hlt
      have hb : words[ctx.call_cntr]? = some (words[ctx.call_cntr]) :=
        List.getElem?_eq_getElem hlt2
      have hrow : tab[ctx.call_cntr]? = some (words[ctx.call_cntr]).cells := by
        rw [← hmap, List.getElem?_map, hb]; rfl
      have hcl : (words[ctx.call_cntr]).cells.length = fcinfo.xpathes.length :=
        hlen _ (List.mem_iff_getElem?.mpr ⟨_, hrow⟩)
      by_cases hn : fcinfo.natts ≤ fcinfo.xpathes.length
      · exact hn
      · exfalso
        have htake : List.take fcinfo.xpathes.length (words[ctx.call_cntr]).cells =
            (words[ctx.call_cntr]).cells := List.take_of_length_le (by rw [hcl])
        cases hf : (words[ctx.call_cntr]).freed <;>
          simp [emitRow, hu, hb, hf, readCells, hcl, htake, heap_form_tuple, htd, hn,
            Res.bind] at hok
    · exfalso
      have hnone : words[ctx.call_cntr]? = none :=
        List.getElem?_eq_none (by rw [hwl]; exact Nat.le_of_not_lt hlt)
      simp [emitRow, hu, hnone] at hok

/-- Every context of an extraction holds the rows of the specification. -/
theorem holds_of_reachable {Doc Node : Type} {lib : XmlLib Doc Node} {fcinfo : FunctionCallInfo}
    {ctx : FuncCallContext} (h : Reachable lib fcinfo ctx) :
    Holds fcinfo (specRows lib fcinfo) ctx := by
  induction h with
  | first hf => exact (firstCall_eq_ok hf).2.2.2.2
  | @step l ctx ctx2 r _ hstep ih =>
    obtain ⟨hlt, hn⟩ := emitRow_eq_ok fcinfo _ ctx ih hstep
    obtain ⟨row, words, block, _, _, _, _, _, hcall, hholds⟩ :=
      emitRow_of_holds fcinfo _ ctx ih hlt hn
    rw [hcall] at hstep
    simp only [Res.ok.injEq, Prod.mk.injEq, Option.some.injEq] at hstep
    rw [← hstep.2.2]
    exact hholds

/-- The calls of an extraction whose first call faults: the fault, and no row. -/
theorem calls_of_fault {Doc Node : Type} (lib : XmlLib Doc Node) (fcinfo : FunctionCallInfo)
    {l : List String} {f : Fault} (h : firstCall lib fcinfo = Res.fault l f) (n : Nat) :
    calls lib fcinfo (n + 1) none = Res.fault l f := by
  simp [calls, read_xml_file, h]

/-- After a call that reports done the calls go on from fn_extra = NULL, that
is with a first call. -/
theorem calls_after_done {Doc Node : Type} (lib : XmlLib Doc Node) (fcinfo : FunctionCallInfo)
    (ctx : FuncCallContext) (h : ¬ ctx.call_cntr < ctx.max_calls) (n : Nat) :
    calls lib fcinfo (n + 1) (some ctx) =
      (calls lib fcinfo n none).bind fun rest => pure (CallResult.done :: rest) := by
  simp [calls, read_xml_file, perCall_done fcinfo ctx h]

theorem specRows_getElem? {Doc Node : Type} (lib : XmlLib Doc Node) (fcinfo : FunctionCallInfo)
    {i : Nat} {n : Node} (h : (rowNodes lib fcinfo)[i]? = some n) :
    (specRows lib fcinfo)[i]? =
      some (fcinfo.xpathes.map (specCell lib (lib.xmlReadFile fcinfo.filename) n)) := by
  simp [specRows, h]

theorem length_specRows {Doc Node : Type} (lib : XmlLib Doc Node) (fcinfo : FunctionCallInfo) :
    (specRows lib fcinfo).length = (rowNodes lib fcinfo).length := by
  simp [specRows]

/-- In the table built by a first call that ends well, a cell is a function of
its own row node and its own column XPath. -/
theorem tableCell_first {Doc Node : Type} (lib : XmlLib Doc Node) (fcinfo : FunctionCallInfo)
    (h : (firstCall lib fcinfo).isOk = true) (i j : Nat) :
    tableCell (firstCall lib fcinfo) i j =
      ((rowNodes lib fcinfo)[i]?).bind fun n =>
        (fcinfo.xpathes[j]?).map (specCell lib (lib.xmlReadFile fcinfo.filename) n) := by
  cases hf : firstCall lib fcinfo with
  | fault l f => rw [hf] at h; cases h
  | ok l ctx =>
    obtain ⟨_, _, _, _, _, _, _, _, hw⟩ := firstCall_eq_ok hf
    have hspec : (specRows lib fcinfo)[i]? =
        ((rowNodes lib fcinfo)[i]?).map fun n =>
          fcinfo.xpathes.map (specCell lib (lib.xmlReadFile fcinfo.filename) n) := by
      simp [specRows]
    rcases hw with ⟨hu, hnil⟩ | ⟨words, hu, hmap, _⟩
    · have hnone : (rowNodes lib fcinfo)[i]? = none := by
        have hl := length_specRows lib fcinfo
        rw [hnil] at hl
        exact List.getElem?_eq_none (by rw [← hl]; exact Nat.zero_le _)
      simp [tableCell, hu, hnone]
    · have hwi : (words[i]?).map RowBlock.cells = (specRows lib fcinfo)[i]? := by
        rw [← hmap, List.getElem?_map]
      rw [hspec] at hwi
      simp only [tableCell, hu]
      cases hb : words[i]? with
      | none =>
        rw [hb] at hwi
        cases hn : (rowNodes lib fcinfo)[i]? with
        | none => rfl
        | some n => rw [hn] at hwi; cases hwi
      | some b =>
        rw [hb] at hwi
        cases hn : (rowNodes lib fcinfo)[i]? with
        | none => rw [hn] at hwi; cases hwi
        | some n =>
          rw [hn] at hwi
          simp only [Option.map_some', Option.some.injEq] at hwi
          simp [hwi]

/-! ## The claims -/

/-- Claim C1, at the example of the specification (rows //item, columns name and
age, a call site of two columns): the first call builds the table with the cells
(A, absent) and (B, 5), but the row-returning branch stores a pointer at the
address of the bool key_nulls (lines 190-193), so the first call of the run
faults and no row is returned, where the claim has the two rows. -/
theorem example_rows_are_not_returned :
    firstCall demoLib itemsCall = Res.ok [] itemsContext ∧
    deconstructPerCall itemsCall = Res.fault [] Fault.outOfBounds ∧
    read_xml_file demoLib itemsCall none = Res.fault [] Fault.outOfBounds ∧
    calls demoLib itemsCall 3 none = Res.fault [] Fault.outOfBounds :=
  ⟨by decide, by decide, by decide, by decide⟩

/-- Claim C2, at a call whose row XPath selects two nodes and whose only column
XPath is not well formed: the first call faults on the NULL result object and
no row is returned, where the claim has two rows. -/
theorem no_rows_when_column_is_not_evaluated :
    (rowNodes demoLib oneBadColumnCall).length = 2 ∧
    calls demoLib oneBadColumnCall 3 none =
      Res.fault ["getValue Failed to evaluate xpath\n"] Fault.nullDereference :=
  ⟨by decide, by decide⟩

/-- Claim C3, at the example of the specification: the call on the context of
the first call faults in lines 189-193 before a tuple is formed; and the tuple
of line 210 has the columns of the descriptor of the call site, not those of
the list of column XPaths: from the two cells of the first row a descriptor of
one column gives a tuple of one cell, and a descriptor of three columns reads
past the arrays. -/
theorem tuple_follows_descriptor_not_columns :
    perCall itemsCall itemsContext = Res.fault [] Fault.outOfBounds ∧
    heap_form_tuple 1 [some "A", none] = Res.ok [] [some "A"] ∧
    heap_form_tuple 3 [some "A", none] = Res.fault [] Fault.outOfBounds ∧
    (emitRow { itemsContext with tuple_desc := 3 } itemsCall.xpathes.length).isOk = false :=
  ⟨by decide, by decide, by decide, by decide⟩

/-- After a file that is not parsed the row XPath is still evaluated, on a
context without document: when that evaluation gives no result object the call
faults on it. -/
theorem firstCall_of_unparsed {Doc Node : Type} (lib : XmlLib Doc Node)
    (fcinfo : FunctionCallInfo) (hc : fcinfo.returnsComposite = true)
    (hdoc : lib.xmlReadFile fcinfo.filename = none)
    (hrow : lib.xmlXPathEvalExpression fcinfo.xpathArray
      { doc := none, node := lib.xmlDocGetRootElement none } = none) :
    firstCall lib fcinfo =
      Res.fault ["Could not parse the XML file", "Failed to evaluate xpath\n"]
        Fault.nullDereference := by
  simp [firstCall, hc, hdoc, hrow, notice, Res.bind]

/-- A column XPath that is not evaluated makes getValue fault, whatever the
context. -/
theorem getValue_of_no_result {Doc Node : Type} (lib : XmlLib Doc Node)
    (ctx : XPathContext Doc Node) (c : String)
    (h : lib.xmlXPathEvalExpression c ctx = none) :
    getValue lib ctx c =
      Res.fault ["getValue Failed to evaluate xpath\n"] Fault.nullDereference := by
  simp [getValue, h, notice, Res.bind]

/-- A row XPath that is not evaluated makes the first call fault, after the
notices sent so far. -/
theorem firstCall_of_no_result {Doc Node : Type} (lib : XmlLib Doc Node)
    (fcinfo : FunctionCallInfo) (hc : fcinfo.returnsComposite = true)
    (hrow : lib.xmlXPathEvalExpression fcinfo.xpathArray (rowContext lib fcinfo) = none) :
    ∃ l, firstCall lib fcinfo = Res.fault l Fault.nullDereference := by
  have hctx : rowContext lib fcinfo =
      { doc := lib.xmlReadFile fcinfo.filename
        node := lib.xmlDocGetRootElement (lib.xmlReadFile fcinfo.filename) } := rfl
  rw [hctx] at hrow
  cases hd : (lib.xmlReadFile fcinfo.filename).isNone <;>
    simp [firstCall, hc, hd, hrow, notice, Res.bind]

/-- Claim C4, at the file broken.xml, for which xmlReadFile gives no document:
the call sends a notice, goes on to evaluate the row XPath on a context without
document, sets up a context with max_calls 0, and ends as a run without rows
and without error; the claim has a fatal error with no further work. -/
theorem unparsed_file_is_not_fatal :
    (demoLib.xmlReadFile brokenCall.filename).isNone = true ∧
    firstCall demoLib brokenCall =
      Res.ok ["Could not parse the XML file", "Failed to find nodes using: \n"]
        { call_cntr := 0, max_calls := 0, user_fctx := none, tuple_desc := 2 } ∧
    read_xml_file demoLib brokenCall none =
      Res.ok ["Could not parse the XML file", "Failed to find nodes using: \n"]
        (CallResult.done, none) :=
  ⟨by decide, by decide, by decide⟩

/-- Claim C5, at the columns name and age[ under the rows //item: evaluating
age[ gives no result object, getValue faults on it, and the whole run faults
without a row; the claim has the rows (A, absent) and (B, absent). -/
theorem column_failure_aborts_the_run :
    (demoLib.xmlXPathEvalExpression "age["
      { doc := some itemsDoc, node := (rowNodes demoLib badColumnCall)[0]? }).isNone = true ∧
    getValue demoLib { doc := some itemsDoc, node := (rowNodes demoLib badColumnCall)[0]? }
        "age[" =
      Res.fault ["getValue Failed to evaluate xpath\n"] Fault.nullDereference ∧
    calls demoLib badColumnCall 3 none =
      Res.fault ["getValue Failed to evaluate xpath\n"] Fault.nullDereference ∧
    specRows demoLib badColumnCall = [[some "A", none], [some "B", none]] :=
  ⟨by decide, by decide, by decide, by decide⟩

/-- Claim C6, at the row XPath //item[ on a file that is parsed: the evaluation
gives no result object, the call sends a notice and then faults on the NULL
object; no error is raised for the selector. -/
theorem row_failure_is_a_null_dereference :
    (demoLib.xmlReadFile badRowCall.filename).isSome = true ∧
    (demoLib.xmlXPathEvalExpression badRowCall.xpathArray
      (rowContext demoLib badRowCall)).isNone = true ∧
    read_xml_file demoLib badRowCall none =
      Res.fault ["Failed to evaluate xpath\n"] Fault.nullDereference :=
  ⟨by decide, by decide, by decide⟩

/-- Claim C7.  When the file is parsed and the row XPath is evaluated but
matches no node, the first call returns done without an error: the context it
sets up has max_calls 0, the cursor 0 and user_fctx left NULL, the call reports
done and gives the context up, and the run is over at its first call without a
row; this holds for every list of column XPaths. -/
theorem no_match_gives_empty_result {Doc Node : Type} (lib : XmlLib Doc Node)
    (fcinfo : FunctionCallInfo) (obj : XPathObject Node)
    (hc : fcinfo.returnsComposite = true)
    (hdoc : (lib.xmlReadFile fcinfo.filename).isSome = true)
    (hrow : lib.xmlXPathEvalExpression fcinfo.xpathArray (rowContext lib fcinfo) = some obj)
    (hzero : xmlXPathNodeSetGetLength obj.nodesetval = 0) :
    firstCall lib fcinfo =
      Res.ok ["Failed to find nodes using: \n"]
        { call_cntr := 0, max_calls := 0, user_fctx := none, tuple_desc := fcinfo.natts } ∧
    read_xml_file lib fcinfo none =
      Res.ok ["Failed to find nodes using: \n"] (CallResult.done, none) ∧
    calls lib fcinfo 1 none =
      Res.ok ["Failed to find nodes using: \n"] [CallResult.done] := by
  have hctx : rowContext lib fcinfo =
      { doc := lib.xmlReadFile fcinfo.filename
        node := lib.xmlDocGetRootElement (lib.xmlReadFile fcinfo.filename) } := rfl
  have hd : (lib.xmlReadFile fcinfo.filename).isNone = false := by
    cases hx : lib.xmlReadFile fcinfo.filename with
    | none => rw [hx] at hdoc; cases hdoc
    | some d => rfl
  have hnil : nodeTab obj.nodesetval = [] := by
    rw [length_nodeTab] at hzero
    exact List.eq_nil_of_length_eq_zero hzero
  have hemp := (isEmpty_nodeTab obj.nodesetval).mpr hnil
  have hfirst : firstCall lib fcinfo =
      Res.ok ["Failed to find nodes using: \n"]
        { call_cntr := 0, max_calls := 0, user_fctx := none, tuple_desc := fcinfo.natts } := by
    rw [hctx] at hrow
    simp [firstCall, hc, hd, hrow, hemp, hzero, notice, Res.bind]
  have hcall : read_xml_file lib fcinfo none =
      Res.ok ["Failed to find nodes using: \n"] (CallResult.done, none) := by
    simp [read_xml_file, hfirst, perCall, Res.bind]
  refine ⟨hfirst, hcall, ?_⟩
  simp [calls, hcall, Res.bind]

/-- Claim C7, on the example of the specification: the row XPath //missing on
the example document. -/
theorem no_match_gives_empty_result_witness :
    ((demoLib.xmlReadFile missingCall.filename).isSome = true ∧
      xmlXPathNodeSetGetLength (some ([] : List XmlNode)) = 0) ∧
    firstCall demoLib missingCall =
      Res.ok ["Failed to find nodes using: \n"]
        { call_cntr := 0, max_calls := 0, user_fctx := none, tuple_desc := 2 } ∧
    read_xml_file demoLib missingCall none =
      Res.ok ["Failed to find nodes using: \n"] (CallResult.done, none) ∧
    calls demoLib missingCall 1 none =
      Res.ok ["Failed to find nodes using: \n"] [CallResult.done] :=
  ⟨by decide,
    no_match_gives_empty_result demoLib missingCall { nodesetval := some [] }
      (by decide) (by decide) (by rfl) (by decide)⟩

/-- Claim C8 fails as stated.  On the example document with the single column
age, which matches no node under the first item (row 0, column 0), replacing
that column XPath by name changes the cell of row 1 in column 0 of the table, a
cell other than (0, 0), from 5 to B. -/
theorem isolation_does_not_cover_the_column :
    ((demoLib.xmlXPathEvalExpression "age"
        { doc := some itemsDoc, node := (rowNodes demoLib ageCall)[0]? }).map
      fun o => xmlXPathNodeSetGetLength o.nodesetval) = some 0 ∧
    ((1, 0) : Nat × Nat) ≠ (0, 0) ∧
    tableCell (firstCall demoLib ageCall) 0 0 = some none ∧
    tableCell (firstCall demoLib ageCall) 1 0 = some (some "5") ∧
    tableCell (firstCall demoLib { ageCall with xpathes := ageCall.xpathes.set 0 "name" }) 1 0 =
      some (some "B") ∧
    tableCell (firstCall demoLib ageCall) 1 0 ≠
      tableCell (firstCall demoLib { ageCall with xpathes := ageCall.xpathes.set 0 "name" })
        1 0 :=
  ⟨by decide, by decide, by decide, by decide, by decide, by decide⟩

/-- Claim C8, amended.  In the tables built by first calls that end well: a cell
is absent when its column XPath matches no node under its row node; replacing
column XPath j by any other selector leaves every cell outside column j as it
was; and every cell is the cell of the specification for its own row node and
its own column XPath. -/
theorem cells_depend_on_own_node_and_column {Doc Node : Type} (lib : XmlLib Doc Node)
    (fcinfo : FunctionCallInfo) (j : Nat) (s : String)
    (h1 : (firstCall lib fcinfo).isOk = true)
    (h2 : (firstCall lib { fcinfo with xpathes := fcinfo.xpathes.set j s }).isOk = true) :
    (∀ i n c, (rowNodes lib fcinfo)[i]? = some n → fcinfo.xpathes[j]? = some c →
      ((lib.xmlXPathEvalExpression c
          { doc := lib.xmlReadFile fcinfo.filename, node := some n }).map
        fun o => xmlXPathNodeSetGetLength o.nodesetval) = some 0 →
      tableCell (firstCall lib fcinfo) i j = some none) ∧
    (∀ i j2, j2 ≠ j →
      tableCell (firstCall lib fcinfo) i j2 =
        tableCell (firstCall lib { fcinfo with xpathes := fcinfo.xpathes.set j s }) i j2) ∧
    (∀ i j2 n c, (rowNodes lib fcinfo)[i]? = some n → fcinfo.xpathes[j2]? = some c →
      tableCell (firstCall lib fcinfo) i j2 =
        some (specCell lib (lib.xmlReadFile fcinfo.filename) n c)) := by
  have hsame : rowNodes lib { fcinfo with xpathes := fcinfo.xpathes.set j s } =
      rowNodes lib fcinfo := rfl
  have hc1 := tableCell_first lib fcinfo h1
  have hc2 := tableCell_first lib { fcinfo with xpathes := fcinfo.xpathes.set j s } h2
  rw [hsame] at hc2
  refine ⟨?_, ?_, ?_⟩
  · intro i n c hn hc hz
    have hcell : specCell lib (lib.xmlReadFile fcinfo.filename) n c = none := by
      unfold specCell
      cases he : lib.xmlXPathEvalExpression c
          { doc := lib.xmlReadFile fcinfo.filename, node := some n } with
      | none => rfl
      | some o =>
        rw [he] at hz
        simp only [Option.map_some', Option.some.injEq] at hz
        cases hns : o.nodesetval with
        | none => simp [hns]
        | some tab =>
          rw [hns] at hz
          cases tab with
          | nil => simp [hns]
          | cons a t => simp [xmlXPathNodeSetGetLength] at hz
    rw [hc1, hn, hc]
    simp [hcell]
  · intro i j2 hne
    rw [hc1, hc2]
    simp only
    rw [List.getElem?_set_ne (Ne.symm hne)]
  · intro i j2 n c hn hc
    rw [hc1, hn, hc]
    rfl

/-- Claim C8, amended, on the example document: the columns name and age, with
age replaced by name. -/
theorem cells_depend_on_own_node_and_column_witness :
    ((firstCall demoLib itemsCall).isOk = true ∧
      (firstCall demoLib
        { itemsCall with xpathes := itemsCall.xpathes.set 1 "name" }).isOk = true) ∧
    tableCell (firstCall demoLib itemsCall) 0 1 = some none ∧
    tableCell (firstCall demoLib itemsCall) 1 0 =
      tableCell (firstCall demoLib { itemsCall with xpathes := itemsCall.xpathes.set 1 "name" })
        1 0 :=
  ⟨by decide,
    (cells_depend_on_own_node_and_column demoLib itemsCall 1 "name" (by decide) (by decide)).1
      0 ((rowNodes demoLib itemsCall).get ⟨0, by decide⟩) "age" (by rfl) (by decide)
      (by decide),
    (cells_depend_on_own_node_and_column demoLib itemsCall 1 "name" (by decide) (by decide)).2.1
      1 0 (by decide)⟩

/-- Claim C10, at the example of the specification: the block of row 0 has not
been released when the first row-returning call begins, and that call faults on
the store of a pointer at the address of the bool key_nulls (lines 190-193)
before it reads the row or reaches pfree, so no block is released after its row
has been returned. -/
theorem row_call_faults_before_release :
    released itemsContext 0 = false ∧
    storeInto sizeofBool sizeofPointer = Res.fault [] Fault.outOfBounds ∧
    perCall itemsCall itemsContext = Res.fault [] Fault.outOfBounds ∧
    calls demoLib itemsCall 1 none = Res.fault [] Fault.outOfBounds :=
  ⟨by decide, by decide, by decide, by decide⟩

end FileReader
